import Mathlib

/-!
Verification development for the sqlflow repository.

The definitions below are a shallow embedding of the DDL-parsing pipeline
(`src/sqlflow-app/src/utils/sqlParser.ts`), the layout engine
(`src/sqlflow-app/src/hooks/useSchemaFilters.ts`) and the edge router
(`src/sqlflow-app/src/utils/edgeRouting.ts`).

Modelling conventions:
- JavaScript strings are Lean `String`s; scanning is done on `List Char`.
- The JavaScript regexes of the source are embedded as hand-written
  matchers that replicate the source regexes (case-insensitive literals,
  `\s+`/`\s*` runs, `\w+` word captures, lazy and greedy captures, optional
  groups with backtracking, and left-to-right global scanning that resumes
  after each match).  Case folding is ASCII (the source inputs are SQL).
- Numbers in the layout engine and edge router are embedded as `Rat`.
  `Math.sqrt` (only used by overlap resolution to compute the movement
  magnitude) is abstracted as an explicit function parameter; the
  comparison `distance < minDistance` of the source is encoded exactly as
  `0 < minDistance ∧ dist² < minDistance²`, which is equivalent for the
  real square root.
- Scanners recurse with an explicit fuel that is always instantiated to
  at least `input.length + 1`; every scan step consumes input, so the
  fuel never runs out on the paths the source can take.
-/

namespace SQLFlow

/-! ## Character helpers -/

/-- ASCII lower-casing (the `i` regex flag and `toLowerCase()` on SQL text). -/
def asciiLower (c : Char) : Char :=
  if 'A' ≤ c ∧ c ≤ 'Z' then Char.ofNat (c.toNat + 32) else c

/-- Case-insensitive character comparison. -/
def lowEq (a b : Char) : Bool := asciiLower a = asciiLower b

/-- JavaScript `\s` (the ASCII part). -/
def isWs (c : Char) : Bool :=
  c = ' ' || c = '\t' || c = '\n' || c = '\r' || c = Char.ofNat 11 || c = Char.ofNat 12

/-- JavaScript `\w`: `[A-Za-z0-9_]`. -/
def isWordChar (c : Char) : Bool :=
  ('a' ≤ c && c ≤ 'z') || ('A' ≤ c && c ≤ 'Z') || ('0' ≤ c && c ≤ '9') || c = '_'

/-- JavaScript `String.prototype.trim` (ASCII whitespace). -/
def trimChars (cs : List Char) : List Char :=
  ((cs.dropWhile isWs).reverse.dropWhile isWs).reverse

def strTrim (s : String) : String := String.mk (trimChars s.data)

/-- `replace(/["`']/g, '')`: drop double quotes, backticks and single quotes. -/
def stripQuoteChars (cs : List Char) : List Char :=
  cs.filter (fun c => !(c = Char.ofNat 34 || c = Char.ofNat 96 || c = Char.ofNat 39))

/-- Case-sensitive prefix test (used for `String.prototype.includes`). -/
def startsWithCS : List Char → List Char → Bool
  | [], _ => true
  | _ :: _, [] => false
  | p :: ps, c :: cs => p = c && startsWithCS ps cs

/-- Case-sensitive substring test: `line.includes(pat)`. -/
def containsRun (pat : List Char) : List Char → Bool
  | [] => startsWithCS pat []
  | c :: cs => startsWithCS pat (c :: cs) || containsRun pat cs

def containsSub (s pat : String) : Bool := containsRun pat.data s.data

/-- Case-insensitive prefix test (anchored case-insensitive literal). -/
def startsWithCI : List Char → List Char → Bool
  | [], _ => true
  | _ :: _, [] => false
  | p :: ps, c :: cs => lowEq p c && startsWithCI ps cs

/-- Match a case-insensitive literal, returning the rest of the input. -/
def litCI : List Char → List Char → Option (List Char)
  | [], cs => some cs
  | _ :: _, [] => none
  | p :: ps, c :: cs => if lowEq p c then litCI ps cs else none

/-- `\s+` (greedy, no backtracking needed in the embedded patterns). -/
def ws1 (cs : List Char) : Option (List Char) :=
  match cs with
  | c :: rest => if isWs c then some (rest.dropWhile isWs) else none
  | [] => none

/-- `\s*`. -/
def skipWs (cs : List Char) : List Char := cs.dropWhile isWs

/-- `\w+` (greedy capture of a word). -/
def word1 (cs : List Char) : Option (List Char × List Char) :=
  let w := cs.takeWhile isWordChar
  if w.isEmpty then none else some (w, cs.dropWhile isWordChar)

/-- A single literal character. -/
def chr (c : Char) : List Char → Option (List Char)
  | [] => none
  | x :: rest => if x = c then some rest else none

/-- `\(\s*([^)]+)\s*\)` after the '(' has been consumed: capture the
non-empty run up to the first ')' with the leading `\s*` stripped, and
return the rest after the ')'. -/
def parenCapture (cs : List Char) : Option (List Char × List Char) :=
  let content := cs.takeWhile (fun c => c ≠ ')')
  let rest := cs.dropWhile (fun c => c ≠ ')')
  match rest with
  | ')' :: r =>
    if content.isEmpty then none
    else
      let trimmed := content.dropWhile isWs
      let cap := if trimmed.isEmpty then content.drop (content.length - 1) else trimmed
      some (cap, r)
  | _ => none

/-- Scan a string for the first position at which the anchored Boolean
matcher succeeds (`regex.test` with a non-global regex). -/
def scanB (f : List Char → Bool) : List Char → Bool
  | [] => f []
  | c :: rest => f (c :: rest) || scanB f rest

/-- Scan for the leftmost position at which the anchored matcher succeeds
(`string.match` with a non-global regex). -/
def scanO {α : Type} (f : List Char → Option α) : List Char → Option α
  | [] => f []
  | c :: rest =>
    match f (c :: rest) with
    | some r => some r
    | none => scanO f rest

/-! ## Data model (`src/sqlflow-app/src/types/index.ts`) -/

structure Column where
  name : String
  type : String
  nullable : Bool
  isPrimary : Bool
  isForeign : Bool
deriving Repr, DecidableEq

structure ForeignKey where
  column : String
  referencedTable : String
  referencedColumn : String
deriving Repr, DecidableEq

structure Index where
  name : String
  columns : List String
  isUnique : Bool
  type : String
deriving Repr, DecidableEq

structure Table where
  name : String
  columns : List Column
  primaryKeys : List String
  foreignKeys : List ForeignKey
  indexes : List Index
deriving Repr, DecidableEq

/-- `Relationship`; the source field names `from`/`to` are Lean keywords,
so they are embedded as `fromTable`/`toTable`. -/
structure Relationship where
  id : String
  fromTable : String
  toTable : String
  fromColumn : String
  toColumn : String
deriving Repr, DecidableEq

structure Schema where
  tables : List Table
  relationships : List Relationship
deriving Repr, DecidableEq

/-! ## `splitByCommaRespectingParentheses` -/

/-- The linear scan of `splitByCommaRespectingParentheses`: split on
commas at parenthesis depth 0; every split part is pushed trimmed, the
final part only when non-empty after trimming. -/
def splitCommaAux : List Char → List Char → Int → List String
  | [], cur, _ =>
    if (trimChars cur.reverse).isEmpty then [] else [String.mk (trimChars cur.reverse)]
  | c :: rest, cur, depth =>
    if c = '(' then splitCommaAux rest (c :: cur) (depth + 1)
    else if c = ')' then splitCommaAux rest (c :: cur) (depth - 1)
    else if c = ',' ∧ depth = 0 then
      String.mk (trimChars cur.reverse) :: splitCommaAux rest [] depth
    else splitCommaAux rest (c :: cur) depth

def splitByCommaRespectingParentheses (text : String) : List String :=
  splitCommaAux text.data [] 0

/-- `split(',')` (plain split, used on captured column lists). -/
def splitOnCommaCh : List Char → List (List Char)
  | [] => [[]]
  | c :: rest =>
    if c = ',' then [] :: splitOnCommaCh rest
    else
      match splitOnCommaCh rest with
      | h :: t => (c :: h) :: t
      | [] => [[c]]

/-- `str.split(',').map(col => col.trim().replace(/["`']/g, ''))`. -/
def splitTrimStrip (s : String) : List String :=
  (splitOnCommaCh s.data).map (fun cs => String.mk (stripQuoteChars (trimChars cs)))

/-! ## Embedded regex matchers -/

/-- Optional group with backtracking: try the group and the continuation;
if either fails, retry the continuation without the group. -/
def optThen {α : Type} (A : List Char → Option (List Char))
    (K : List Char → Option α) (cs : List Char) : Option α :=
  match A cs with
  | some cs' =>
    match K cs' with
    | some r => some r
    | none => K cs
  | none => K cs

/-- `(?:IF\s+NOT\s+EXISTS\s+)?` (the optional part). -/
def matchIfNotExists (cs : List Char) : Option (List Char) := do
  let cs ← litCI "IF".data cs
  let cs ← ws1 cs
  let cs ← litCI "NOT".data cs
  let cs ← ws1 cs
  let cs ← litCI "EXISTS".data cs
  ws1 cs

/-- `(?:public\.)?` (the optional part). -/
def matchPublicDot (cs : List Char) : Option (List Char) :=
  litCI "public.".data cs

/-- `(?:CONSTRAINT\s+\w+\s+)?` (the optional part). -/
def matchConstraintName (cs : List Char) : Option (List Char) := do
  let cs ← litCI "CONSTRAINT".data cs
  let cs ← ws1 cs
  let (_, cs) ← word1 cs
  ws1 cs

/-- `(?:\w+\.)?(\w+)`: an optional schema qualifier followed by a captured
word, with regex backtracking (if the qualified parse fails downstream,
retry with the first word as the capture). -/
def wordAfterOptSchema {α : Type} (K : List Char → List Char → Option α)
    (cs : List Char) : Option α :=
  match word1 cs with
  | none => none
  | some (w1, cs1) =>
    match cs1 with
    | '.' :: cs2 =>
      (match word1 cs2 with
       | some (w2, cs3) =>
         match K w2 cs3 with
         | some r => some r
         | none => K w1 cs1
       | none => K w1 cs1)
    | _ => K w1 cs1

/-- First success of `f` over a list of alternatives. -/
def firstSome {α β : Type} (f : α → Option β) : List α → Option β
  | [] => none
  | x :: xs =>
    match f x with
    | some r => some r
    | none => firstSome f xs

/-! ### `CREATE TABLE` statements -/

/-- `([\s\S]*?)\);`: lazy capture up to the first `);`. -/
def upToCloseSemi : List Char → Option (List Char × List Char)
  | [] => none
  | ')' :: ';' :: rest => some ([], rest)
  | c :: rest =>
    match upToCloseSemi rest with
    | some (b, r) => some (c :: b, r)
    | none => none

/-- Anchored attempt of
`CREATE\s+TABLE\s+(?:IF\s+NOT\s+EXISTS\s+)?(?:public\.)?(\w+)\s*\(([\s\S]*?)\);`
returning `((tableName, body), restAfterMatch)`. -/
def tryCreateTableAt (cs : List Char) : Option ((String × String) × List Char) := do
  let cs ← litCI "CREATE".data cs
  let cs ← ws1 cs
  let cs ← litCI "TABLE".data cs
  let cs ← ws1 cs
  optThen matchIfNotExists (fun cs =>
    optThen matchPublicDot (fun cs => do
      let (nm, cs) ← word1 cs
      let cs := skipWs cs
      let cs ← chr '(' cs
      let (body, rest) ← upToCloseSemi cs
      return ((String.mk nm, String.mk body), rest)) cs) cs

def scanCreateTablesAux : Nat → List Char → List (String × String)
  | 0, _ => []
  | _ + 1, [] => []
  | fuel + 1, c :: rest =>
    match tryCreateTableAt (c :: rest) with
    | some (r, rest') => r :: scanCreateTablesAux fuel rest'
    | none => scanCreateTablesAux fuel rest

/-- All matches of the global `createTableRegex`, in order. -/
def scanCreateTables (sql : String) : List (String × String) :=
  scanCreateTablesAux (sql.data.length + 1) sql.data

/-! ### `CREATE INDEX` statements (`extractIndexes`) -/

structure IndexEntry where
  tableName : String
  index : Index
deriving Repr, DecidableEq

/-- The part of the index regex after `CREATE\s+(?:(UNIQUE)\s+)?`. -/
def idxAfterUnique (isUnique : Bool) (cs : List Char) : Option (IndexEntry × List Char) := do
  let cs ← litCI "INDEX".data cs
  let cs ← ws1 cs
  optThen matchIfNotExists (fun cs => do
    let (nm, cs) ← word1 cs
    let cs ← ws1 cs
    let cs ← litCI "ON".data cs
    let cs ← ws1 cs
    optThen matchPublicDot (fun cs => do
      let (tn, cs) ← word1 cs
      let cs := skipWs cs
      let cs ← chr '(' cs
      let (colsStr, rest) ← parenCapture cs
      return (⟨String.mk tn,
        ⟨String.mk nm, splitTrimStrip (String.mk colsStr), isUnique, "BTREE"⟩⟩, rest)) cs) cs

/-- Anchored attempt of
`CREATE\s+(?:(UNIQUE)\s+)?INDEX\s+(?:IF\s+NOT\s+EXISTS\s+)?(\w+)\s+ON\s+(?:public\.)?(\w+)\s*\(\s*([^)]+)\s*\)`. -/
def tryIndexAt (cs : List Char) : Option (IndexEntry × List Char) := do
  let cs ← litCI "CREATE".data cs
  let cs ← ws1 cs
  match (do
      let cs1 ← litCI "UNIQUE".data cs
      let cs1 ← ws1 cs1
      idxAfterUnique true cs1) with
  | some r => some r
  | none => idxAfterUnique false cs

def scanIndexesAux : Nat → List Char → List IndexEntry
  | 0, _ => []
  | _ + 1, [] => []
  | fuel + 1, c :: rest =>
    match tryIndexAt (c :: rest) with
    | some (r, rest') => r :: scanIndexesAux fuel rest'
    | none => scanIndexesAux fuel rest

/-- `SQLParser.extractIndexes`: all `CREATE INDEX` matches, in order. -/
def extractIndexes (sql : String) : List IndexEntry :=
  scanIndexesAux (sql.data.length + 1) sql.data

/-! ### `ALTER TABLE ... ADD [CONSTRAINT name] FOREIGN KEY` statements -/

structure AlterEntry where
  tableName : String
  fromColsRaw : String
  refTable : String
  toColsRaw : String
deriving Repr, DecidableEq

/-- The part of the ALTER regexes after the table name:
`\s+ADD\s+(?:CONSTRAINT\s+\w+\s+)?FOREIGN\s+KEY\s*\(\s*([^\)]+)\s*\)\s+REFERENCES\s+(?:\w+\.)?(\w+)\s*\(\s*([^\)]+)\s*\)`;
pattern 2 of the source omits the optional `CONSTRAINT` group. -/
def alterTail (allowConstraint : Bool) (tn : List Char) (cs : List Char) :
    Option (AlterEntry × List Char) := do
  let cs ← ws1 cs
  let cs ← litCI "ADD".data cs
  let cs ← ws1 cs
  let rest := fun (cs : List Char) => do
    let cs ← litCI "FOREIGN".data cs
    let cs ← ws1 cs
    let cs ← litCI "KEY".data cs
    let cs := skipWs cs
    let cs ← chr '(' cs
    let (fromCols, cs) ← parenCapture cs
    let cs ← ws1 cs
    let cs ← litCI "REFERENCES".data cs
    let cs ← ws1 cs
    wordAfterOptSchema (fun rt cs => do
      let cs := skipWs cs
      let cs ← chr '(' cs
      let (toCols, rest') ← parenCapture cs
      return ((⟨String.mk tn, String.mk fromCols, String.mk rt,
        String.mk toCols⟩ : AlterEntry), rest')) cs
  if allowConstraint then optThen matchConstraintName rest cs else rest cs

/-- Anchored attempt of the ALTER TABLE foreign-key regexes
(`alterFkRegex` with a constraint group, `alterFkRegex2` without). -/
def tryAlterAt (allowConstraint : Bool) (cs : List Char) :
    Option (AlterEntry × List Char) := do
  let cs ← litCI "ALTER".data cs
  let cs ← ws1 cs
  let cs ← litCI "TABLE".data cs
  let cs ← ws1 cs
  optThen matchIfNotExists (fun cs =>
    wordAfterOptSchema (fun tn cs => alterTail allowConstraint tn cs) cs) cs

def scanAlterAux (allowConstraint : Bool) : Nat → List Char → List AlterEntry
  | 0, _ => []
  | _ + 1, [] => []
  | fuel + 1, c :: rest =>
    match tryAlterAt allowConstraint (c :: rest) with
    | some (r, rest') => r :: scanAlterAux allowConstraint fuel rest'
    | none => scanAlterAux allowConstraint fuel rest

/-- All matches of `alterFkRegex` (pattern 1, optional CONSTRAINT). -/
def scanAlter1 (sql : String) : List AlterEntry :=
  scanAlterAux true (sql.data.length + 1) sql.data

/-- All matches of `alterFkRegex2` (pattern 2, no CONSTRAINT group). -/
def scanAlter2 (sql : String) : List AlterEntry :=
  scanAlterAux false (sql.data.length + 1) sql.data

/-! ### Clause-level patterns of `parseTableDefinitionRegex` -/

/-- Anchored attempt of `REFERENCES\s+(?:\w+\.)?(\w+)\s*\(\s*(\w+)\s*\)`,
returning `(referencedTable, referencedColumn)`. -/
def refTailAt (cs : List Char) : Option (String × String) := do
  let cs ← litCI "REFERENCES".data cs
  let cs ← ws1 cs
  wordAfterOptSchema (fun rt cs => do
    let cs := skipWs cs
    let cs ← chr '(' cs
    let cs := skipWs cs
    let (rc, cs) ← word1 cs
    let cs := skipWs cs
    let _ ← chr ')' cs
    return (String.mk rt, String.mk rc)) cs

/-- The inline-reference match on a column definition's tail
(`rest.match(/REFERENCES\s+(?:\w+\.)?(\w+)\s*\(\s*(\w+)\s*\)/i)`). -/
def inlineRefs (rest : String) : Option (String × String) :=
  scanO refTailAt rest.data

/-- Candidate suffixes starting with a case-insensitive `REFERENCES`
occurrence inside the comma-free region (`[^,]*REFERENCES` backtracking
candidates, earliest first). -/
def refCands : List Char → List (List Char)
  | [] => []
  | c :: rest =>
    if c = ',' then []
    else
      (if startsWithCI "REFERENCES".data (c :: rest) then [c :: rest] else []) ++
        refCands rest

/-- Anchored attempt of pattern 1 of the foreign-key branch:
`(\w+)\s+[^,]*REFERENCES\s+(?:\w+\.)?(\w+)\s*\(\s*(\w+)\s*\)`.
The greedy `[^,]*` tries the latest `REFERENCES` occurrence first. -/
def fkP1At (cs : List Char) : Option ForeignKey := do
  let (w, cs1) ← word1 cs
  match cs1 with
  | c :: _ =>
    if isWs c then
      firstSome
        (fun cand => (refTailAt cand).map
          (fun p => (⟨String.mk w, p.1, p.2⟩ : ForeignKey)))
        (refCands cs1).reverse
    else none
  | [] => none

/-- `line.match(/(\w+)\s+[^,]*REFERENCES\s+(?:\w+\.)?(\w+)\s*\(\s*(\w+)\s*\)/i)`. -/
def fkPattern1 (line : String) : Option ForeignKey :=
  scanO fkP1At line.data

/-- Anchored attempt of pattern 2 of the foreign-key branch:
`(?:CONSTRAINT\s+\w+\s+)?FOREIGN\s+KEY\s*\(\s*(\w+)\s*\)\s+REFERENCES\s+(?:\w+\.)?(\w+)\s*\(\s*(\w+)\s*\)`. -/
def fkP2At (cs : List Char) : Option ForeignKey :=
  optThen matchConstraintName (fun cs => do
    let cs ← litCI "FOREIGN".data cs
    let cs ← ws1 cs
    let cs ← litCI "KEY".data cs
    let cs := skipWs cs
    let cs ← chr '(' cs
    let cs := skipWs cs
    let (col, cs) ← word1 cs
    let cs := skipWs cs
    let cs ← chr ')' cs
    let cs ← ws1 cs
    let cs ← litCI "REFERENCES".data cs
    let cs ← ws1 cs
    wordAfterOptSchema (fun rt cs => do
      let cs := skipWs cs
      let cs ← chr '(' cs
      let cs := skipWs cs
      let (rc, cs) ← word1 cs
      let cs := skipWs cs
      let _ ← chr ')' cs
      return (⟨String.mk col, String.mk rt, String.mk rc⟩ : ForeignKey)) cs) cs

/-- The table-level foreign-key match (`tableLevelFkMatch`). -/
def fkPattern2 (line : String) : Option ForeignKey :=
  scanO fkP2At line.data

/-- `line.match(/^\s*PRIMARY\s+KEY\s*\(/i)` as a test. -/
def pkHeadTest (line : String) : Bool :=
  (do
    let cs ← litCI "PRIMARY".data (skipWs line.data)
    let cs ← ws1 cs
    let cs ← litCI "KEY".data cs
    chr '(' (skipWs cs)).isSome

/-- Anchored attempt of `PRIMARY\s+KEY\s*\(\s*([^)]+)\s*\)`. -/
def pkAt (cs : List Char) : Option String := do
  let cs ← litCI "PRIMARY".data cs
  let cs ← ws1 cs
  let cs ← litCI "KEY".data cs
  let cs := skipWs cs
  let cs ← chr '(' cs
  let (cap, _) ← parenCapture cs
  return String.mk cap

/-- `line.match(/PRIMARY\s+KEY\s*\(\s*([^)]+)\s*\)/i)`: the captured
column list of a primary-key constraint. -/
def pkExtract (line : String) : Option String :=
  scanO pkAt line.data

/-- `/w1\s+w2/i.test(s)` for two case-insensitive words. -/
def testCI2 (w1 w2 : String) (s : String) : Bool :=
  scanB (fun cs =>
    (do
      let cs ← litCI w1.data cs
      let cs ← ws1 cs
      litCI w2.data cs).isSome) s.data

/-- `line.match(/^(\w+)\s+(.+)$/i)`: split a (trimmed) clause into the
column name and the rest; `.`/`$` do not cross a newline, so the rest
must be newline-free. -/
def colMatch (line : String) : Option (String × String) := do
  let (nm, cs1) ← word1 line.data
  match cs1 with
  | c :: _ =>
    if isWs c then
      let rest := cs1.dropWhile isWs
      if rest.isEmpty then none
      else if rest.any (fun x => x = '\n') then none
      else some (String.mk nm, String.mk rest)
    else none
  | [] => none

/-! ### The constraint-stripping replace used for the column type -/

/-- One alternative of
`(PRIMARY\s+KEY|NOT\s+NULL|NULL|UNIQUE|DEFAULT\s+[^,\s]*|REFERENCES\s+\w+\s*\([^)]+\)[^,]*)`,
tried in source order at the head of the input; returns the rest after
the alternative. -/
def altAt (cs : List Char) : Option (List Char) :=
  match (do
      let c1 ← litCI "PRIMARY".data cs
      let c1 ← ws1 c1
      litCI "KEY".data c1) with
  | some r => some r
  | none =>
  match (do
      let c1 ← litCI "NOT".data cs
      let c1 ← ws1 c1
      litCI "NULL".data c1) with
  | some r => some r
  | none =>
  match litCI "NULL".data cs with
  | some r => some r
  | none =>
  match litCI "UNIQUE".data cs with
  | some r => some r
  | none =>
  match (do
      let c1 ← litCI "DEFAULT".data cs
      let c1 ← ws1 c1
      return c1.dropWhile (fun c => !(isWs c || c = ','))) with
  | some r => some r
  | none =>
    (do
      let c1 ← litCI "REFERENCES".data cs
      let c1 ← ws1 c1
      let (_, c1) ← word1 c1
      let c1 := skipWs c1
      let c1 ← chr '(' c1
      let (_, c1) ← parenCapture c1
      return c1.dropWhile (fun c => c ≠ ','))

/-- `.*`: consume up to the end of the line (end of input or the next
newline). -/
def dropToEol (cs : List Char) : List Char := cs.dropWhile (fun c => c ≠ '\n')

/-- `rest.replace(/\s*(…alternatives…).*/gi, '')`: delete, repeatedly and
left to right, every span from the whitespace preceding an alternative
through the end of its line; scanning resumes at the deletion point. -/
def typeStripAux : Nat → List Char → List Char
  | 0, _ => []
  | _ + 1, [] => []
  | fuel + 1, c :: rest =>
    match altAt ((c :: rest).dropWhile isWs) with
    | some altRest => typeStripAux fuel (dropToEol altRest)
    | none => c :: typeStripAux fuel rest

def typeStrip (rest : String) : String :=
  String.mk (typeStripAux (rest.data.length + 1) rest.data)

/-- `replace(/\s+/g, ' ')`. -/
def collapseWsAux : Nat → List Char → List Char
  | 0, _ => []
  | _ + 1, [] => []
  | fuel + 1, c :: rest =>
    if isWs c then ' ' :: collapseWsAux fuel (rest.dropWhile isWs)
    else c :: collapseWsAux fuel rest

def collapseWs (s : String) : String :=
  String.mk (collapseWsAux (s.data.length + 1) s.data)

/-- `toLowerCase()` (ASCII). -/
def strLower (s : String) : String := String.mk (s.data.map asciiLower)

/-! ## Relationship ids -/

def digitChar (n : Nat) : Char := Char.ofNat (48 + n)

/-- Decimal digits of a natural number (the rendering a JavaScript
template literal uses for `relationships.length`). -/
def natToStrAux (n : Nat) : List Char :=
  if _h : n < 10 then [digitChar n]
  else natToStrAux (n / 10) ++ [digitChar (n % 10)]
termination_by n
decreasing_by exact Nat.div_lt_self (by omega) (by omega)

def natToStr (n : Nat) : String := String.mk (natToStrAux n)

/-- `` `${from}-${to}-${relationships.length}` ``. -/
def mkRelId (fromT toT : String) (n : Nat) : String :=
  fromT ++ "-" ++ toT ++ "-" ++ natToStr n

def mkRel (fromT toT fromC toC : String) (n : Nat) : Relationship :=
  ⟨mkRelId fromT toT n, fromT, toT, fromC, toC⟩

/-! ## `parseTableDefinitionRegex` -/

/-- The mutable accumulators of `parseTableDefinitionRegex`. -/
structure PTState where
  columns : List Column
  primaryKeys : List String
  foreignKeys : List ForeignKey
deriving Repr, DecidableEq

/-- `list.includes(x)` on strings. -/
def listHas (l : List String) (x : String) : Bool :=
  l.any (fun y => decide (y = x))

/-- The primary-key branch condition:
`(line.includes('CONSTRAINT') && line.includes('PRIMARY KEY')) ||
 line.match(/^\s*PRIMARY\s+KEY\s*\(/i)`. -/
def pkBranchCond (line : String) : Bool :=
  (containsSub line "CONSTRAINT" && containsSub line "PRIMARY KEY") || pkHeadTest line

/-- The body of the `for (const line of lines)` loop of
`parseTableDefinitionRegex` (the unused `hasUnique` flag is omitted). -/
def processClause (st : PTState) (line : String) : PTState :=
  if pkBranchCond line then
    match pkExtract line with
    | some colsStr => { st with primaryKeys := st.primaryKeys ++ splitTrimStrip colsStr }
    | none => st
  else if containsSub line "REFERENCES" then
    match fkPattern1 line with
    | some fk => { st with foreignKeys := st.foreignKeys ++ [fk] }
    | none =>
      match fkPattern2 line with
      | some fk => { st with foreignKeys := st.foreignKeys ++ [fk] }
      | none => st
  else if !containsSub line "CONSTRAINT" then
    match colMatch line with
    | some (columnName, rest0) =>
      let rest := strTrim rest0
      let hasPrimaryKey := testCI2 "PRIMARY" "KEY" rest
      let hasNotNull := testCI2 "NOT" "NULL" rest
      let ct0 := strTrim (typeStrip rest)
      let ct1 := if ct0 = rest then collapseWs rest else ct0
      let serialState :=
        if containsSub (strLower ct1) "bigserial" then
          ("BIGINT", st.primaryKeys ++ [columnName])
        else if containsSub (strLower ct1) "serial" then
          ("INT", st.primaryKeys ++ [columnName])
        else (ct1, st.primaryKeys)
      let columnType := serialState.1
      let pks1 := serialState.2
      let isPrimary := hasPrimaryKey || listHas pks1 columnName
      let pks2 := if isPrimary && !listHas pks1 columnName then pks1 ++ [columnName] else pks1
      let fks2 :=
        match inlineRefs rest with
        | some p => st.foreignKeys ++ [⟨columnName, p.1, p.2⟩]
        | none => st.foreignKeys
      let isForeign := fks2.any (fun fk => decide (fk.column = columnName))
      { columns := st.columns ++ [⟨columnName, columnType, !hasNotNull, isPrimary, isForeign⟩],
        primaryKeys := pks2,
        foreignKeys := fks2 }
    | none => st
  else st

/-- `SQLParser.parseTableDefinitionRegex` (its catch block is unreachable
in the model: no operation of the body throws). -/
def parseTableDefinitionRegex (tableName : String) (definition : String) : Table :=
  let st := (splitByCommaRespectingParentheses definition).foldl processClause ⟨[], [], []⟩
  let columns := st.columns.map (fun c =>
    { c with
      isPrimary := c.isPrimary || listHas st.primaryKeys c.name,
      isForeign := c.isForeign || st.foreignKeys.any (fun fk => decide (fk.column = c.name)) })
  ⟨tableName, columns, st.primaryKeys, st.foreignKeys, []⟩

/-! ## Relationship derivation and the ALTER TABLE pass -/

/-- `SQLParser.extractRelationshipsRegex`: one Relationship per
ForeignKey, with ids using the running relationship count. -/
def extractRelationshipsRegex (t : Table) (rels : List Relationship) : List Relationship :=
  t.foreignKeys.foldl
    (fun acc fk =>
      acc ++ [mkRel t.name fk.referencedTable fk.column fk.referencedColumn acc.length])
    rels

/-- The CREATE TABLE loop of `fallbackRegexParsing` (the `if (table)` test
of the source is always true in the model, see
`parseTableDefinitionRegex`). -/
def fallbackCore (ms : List (String × String)) : List Table × List Relationship :=
  ms.foldl
    (fun st m =>
      let t := parseTableDefinitionRegex m.1 m.2
      (st.1 ++ [t], extractRelationshipsRegex t st.2))
    ([], [])

/-- `tables.find(t => t.name.toLowerCase() === nm.toLowerCase())` followed
by an in-place mutation of the found table: update the first
case-insensitive name match, returning its (unchanged) name. -/
def updateFirstCI (nm : String) (f : Table → Table) : List Table → Option (String × List Table)
  | [] => none
  | t :: ts =>
    if strLower t.name = strLower nm then some (t.name, f t :: ts)
    else
      match updateFirstCI nm f ts with
      | some r => some (r.1, t :: r.2)
      | none => none

/-- `table.columns.find(c => c.name.toLowerCase() === fromColumn.toLowerCase())`
with `col.isForeign = true` on the found column. -/
def markFirstForeign (fromColumn : String) : List Column → List Column
  | [] => []
  | c :: cls =>
    if strLower c.name = strLower fromColumn then { c with isForeign := true } :: cls
    else c :: markFirstForeign fromColumn cls

/-- One iteration of the column-pair loop of an ALTER TABLE match.  The
source finds the table object once per match and mutates it through the
loop; since the update never changes the table's name, this is embedded
as a first-match update per pair. -/
def alterPairStep (tableName refTable : String)
    (st : List Table × List Relationship) (p : String × String) :
    List Table × List Relationship :=
  match updateFirstCI tableName
      (fun t =>
        { t with
          foreignKeys := t.foreignKeys ++ [⟨p.1, refTable, p.2⟩],
          columns := markFirstForeign p.1 t.columns }) st.1 with
  | some r => (r.2, st.2 ++ [mkRel r.1 refTable p.1 p.2 st.2.length])
  | none => st

/-- Processing of one ALTER TABLE regex match: split and clean both
column lists, pair them positionally (`zip` truncates to the shorter
list, like the `min`-bounded loop of the source), and push a ForeignKey
and a Relationship per pair. -/
def applyAlterEntry (st : List Table × List Relationship) (e : AlterEntry) :
    List Table × List Relationship :=
  let fromCols := splitTrimStrip e.fromColsRaw
  let toCols := splitTrimStrip e.toColsRaw
  (fromCols.zip toCols).foldl (alterPairStep e.tableName e.refTable) st

/-- `SQLParser.parseAlterTableForeignKeys`: all pattern-1 matches, then
all pattern-2 matches. -/
def parseAlterTableForeignKeys (sql : String) (tables : List Table)
    (rels : List Relationship) : List Table × List Relationship :=
  let st1 := (scanAlter1 sql).foldl applyAlterEntry (tables, rels)
  (scanAlter2 sql).foldl applyAlterEntry st1

/-! ## Index association and the top-level parser -/

/-- One step of `associateIndexesWithTables`: push the index onto the
first table whose name matches case-insensitively, if any. -/
def assocStep (tables : List Table) (e : IndexEntry) : List Table :=
  match updateFirstCI e.tableName
      (fun t => { t with indexes := t.indexes ++ [e.index] }) tables with
  | some r => r.2
  | none => tables

def associateIndexesWithTables (tables : List Table) (entries : List IndexEntry) :
    List Table :=
  entries.foldl assocStep tables

/-- `SQLParser.fallbackRegexParsing`: extract indexes, parse every CREATE
TABLE match, run the ALTER TABLE pass over the original text, then
associate indexes. -/
def fallbackRegexParsing (sql : String) : Schema :=
  let indexes := extractIndexes sql
  let st0 := fallbackCore (scanCreateTables sql)
  let st1 := parseAlterTableForeignKeys sql st0.1 st0.2
  ⟨associateIndexesWithTables st1.1 indexes, st1.2⟩

/-- `SQLParser.parseSQL`.  The try block of the source unconditionally
throws (`throw new Error('Forcing regex parsing ...')`) after two calls
whose results are discarded, so every call reaches the catch block and
returns `fallbackRegexParsing(sql)`; no exception escapes. -/
def parseSQL (sql : String) : Schema := fallbackRegexParsing sql

/-! ## Layout engine (`LayoutEngine` in `useSchemaFilters.ts`)

Canvas coordinates are embedded as `ℚ`. -/

structure Pt where
  x : ℚ
  y : ℚ
deriving Repr, DecidableEq

/-- `Set.add` on processed table names (insertion order, deduplicating). -/
def addName (processed : List String) (n : String) : List String :=
  if listHas processed n then processed else processed ++ [n]

/-- The dependency set of a table name: `dependencies.get(name)`.  The
source stores a `Set`, used only for emptiness (`size === 0`) and for
`every`-containment, for which this list is equivalent. -/
def depsOf (rels : List Relationship) (n : String) : List String :=
  (rels.filter (fun r => decide (r.fromTable = n))).map (fun r => r.toTable)

/-- A table qualifies for the next level: not processed yet and all of
its dependencies processed. -/
def levelReady (deps : String → List String) (processed : List String) (t : Table) : Bool :=
  !listHas processed t.name && (deps t.name).all (fun d => listHas processed d)

/-- The `while (processedTables.size < tables.length)` loop of
`hierarchicalLayout`; `tables.length` fuel suffices since every round
processes at least one remaining table. -/
def buildLevelsAux (tables : List Table) (deps : String → List String) :
    Nat → List String → List (List String) → List (List String)
  | 0, _, levels => levels
  | fuel + 1, processed, levels =>
    if processed.length < tables.length then
      let next0 := (tables.filter (levelReady deps processed)).map (fun t => t.name)
      let next :=
        if next0.isEmpty then
          (tables.filter (fun t => !listHas processed t.name)).map (fun t => t.name)
        else next0
      buildLevelsAux tables deps fuel (next.foldl addName processed) (levels ++ [next])
    else levels

/-- Positioning of one level: `y = levelIndex * (spacing * 1.2) + padding`,
tables centered horizontally around `padding - totalWidth/2 + innerWidth/2`. -/
def placeLevel (spacing padding innerWidth : ℚ) (levelIndex : Nat) (level : List String) :
    List (String × Pt) :=
  let levelSpacing := spacing * (6 / 5)
  let y := (levelIndex : ℚ) * levelSpacing + padding
  let totalWidth := ((level.length : ℚ) - 1) * spacing
  let startX := padding - totalWidth / 2
  level.enum.map (fun p =>
    (p.2, ⟨startX + (p.1 : ℚ) * spacing + innerWidth / 2, y⟩))

/-- `LayoutEngine.hierarchicalLayout` (the `dependents` map of the source
is computed but never read, and is omitted; `window.innerWidth` is the
`innerWidth` parameter). -/
def hierarchicalLayout (tables : List Table) (rels : List Relationship)
    (spacing padding innerWidth : ℚ) : List (String × Pt) :=
  let deps := depsOf rels
  let roots := tables.filter (fun t => (deps t.name).isEmpty)
  let processed0 :=
    if roots.isEmpty then ([] : List String)
    else (roots.map (fun t => t.name)).foldl addName []
  let levels0 :=
    if roots.isEmpty then ([] : List (List String))
    else [roots.map (fun t => t.name)]
  let levels := buildLevelsAux tables deps tables.length processed0 levels0
  levels.enum.foldl (fun acc p => acc ++ placeLevel spacing padding innerWidth p.1 p.2) []

/-- `positions.get(name)` where later `positions.set` calls overwrite
earlier ones. -/
def lookupPos (ps : List (String × Pt)) (n : String) : Option Pt :=
  ps.foldl (fun acc p => if p.1 = n then some p.2 else acc) none

/-! ### `resolveOverlaps` -/

def dist2 (p q : Pt) : ℚ := (p.x - q.x) * (p.x - q.x) + (p.y - q.y) * (p.y - q.y)

/-- The ordered pairs visited by the nested `tables.forEach` loops. -/
def allPairs (tables : List Table) : List (Table × Table) :=
  tables.flatMap (fun t1 => tables.map (fun t2 => (t1, t2)))

/-- The body of the nested pair loop of `resolveOverlaps`.  The source
condition `distance < minDistance` (with `distance = Math.sqrt(d2)`) is
encoded exactly as `0 < minD ∧ d2 < minD²`; the movement magnitude uses
the abstracted square root `sqrtFn` (division by zero is total in `ℚ`,
where the source would produce `NaN`; the theorems below never depend on
the moved positions). -/
def overlapStep (minD : ℚ) (sqrtFn : ℚ → ℚ)
    (st : (String → Pt) × Bool) (p : Table × Table) : (String → Pt) × Bool :=
  if p.1.name = p.2.name then st
  else
    let pos1 := st.1 p.1.name
    let pos2 := st.1 p.2.name
    let dx := pos1.x - pos2.x
    let dy := pos1.y - pos2.y
    let d2 := dx * dx + dy * dy
    if 0 < minD ∧ d2 < minD * minD then
      let distance := sqrtFn d2
      let moveDistance := (minD - distance) / 2 + 10
      let moveX := dx / distance * moveDistance
      let moveY := dy / distance * moveDistance
      (fun n =>
        if n = p.1.name then ⟨pos1.x + moveX, pos1.y + moveY⟩
        else if n = p.2.name then ⟨pos2.x - moveX, pos2.y - moveY⟩
        else st.1 n, true)
    else st

/-- One iteration of the `for (let iteration = 0; ...)` loop: visit every
ordered pair, accumulating the `hasOverlaps` flag. -/
def overlapSweep (tables : List Table) (minD : ℚ) (sqrtFn : ℚ → ℚ)
    (pos : String → Pt) : (String → Pt) × Bool :=
  (allPairs tables).foldl (overlapStep minD sqrtFn) (pos, false)

/-- The iteration loop of `resolveOverlaps` with its 50-round cap.  The
Boolean result is `true` when some sweep found no overlap (the source's
`break`), `false` when all rounds ran with overlaps remaining (the cap
was reached). -/
def resolveLoop (tables : List Table) (minD : ℚ) (sqrtFn : ℚ → ℚ) :
    Nat → (String → Pt) → (String → Pt) × Bool
  | 0, pos => (pos, false)
  | fuel + 1, pos =>
    let s := overlapSweep tables minD sqrtFn pos
    if s.2 then resolveLoop tables minD sqrtFn fuel s.1 else (s.1, true)

/-- `LayoutEngine.resolveOverlaps` (`minDistance = spacing * 0.7`). -/
def resolveOverlaps (tables : List Table) (spacing : ℚ) (sqrtFn : ℚ → ℚ)
    (pos : String → Pt) : String → Pt :=
  (resolveLoop tables (spacing * (7 / 10)) sqrtFn 50 pos).1

/-! ## Edge router (`edgeRouting.ts`) -/

/-- `Math.abs` on the embedded numbers. -/
def ratAbs (x : ℚ) : ℚ := if x < 0 then -x else x

structure RFNode where
  id : String
  position : Option Pt
deriving Repr, DecidableEq

structure ConnectionPoint where
  sourceHandle : String
  targetHandle : String
deriving Repr, DecidableEq

/-- `calculateOptimalConnection` with the assumed node size 300×200; a
missing position on either node yields the bottom/top default. -/
def calculateOptimalConnection (sourceNode targetNode : RFNode) : ConnectionPoint :=
  match sourceNode.position, targetNode.position with
  | some sourcePos, some targetPos =>
    let nodeWidth : ℚ := 300
    let nodeHeight : ℚ := 200
    let sourceCenterX := sourcePos.x + nodeWidth / 2
    let sourceCenterY := sourcePos.y + nodeHeight / 2
    let targetCenterX := targetPos.x + nodeWidth / 2
    let targetCenterY := targetPos.y + nodeHeight / 2
    let deltaX := targetCenterX - sourceCenterX
    let deltaY := targetCenterY - sourceCenterY
    if ratAbs deltaX > ratAbs deltaY then
      if deltaX > 0 then
        ⟨sourceNode.id ++ "-source-right", targetNode.id ++ "-target-left"⟩
      else
        ⟨sourceNode.id ++ "-source-left", targetNode.id ++ "-target-right"⟩
    else
      if deltaY > 0 then
        ⟨sourceNode.id ++ "-source-bottom", targetNode.id ++ "-target-top"⟩
      else
        ⟨sourceNode.id ++ "-source-top", targetNode.id ++ "-target-bottom"⟩
  | _, _ =>
    ⟨sourceNode.id ++ "-source-bottom", targetNode.id ++ "-target-top"⟩

/-! ## Helper lemmas -/

theorem foldl_alterPairStep_nil (tn rt : String) (ps : List (String × String))
    (rels : List Relationship) :
    ps.foldl (alterPairStep tn rt) (([] : List Table), rels) = ([], rels) := by
  induction ps generalizing rels with
  | nil => rfl
  | cons p ps ih => simpa [alterPairStep, updateFirstCI] using ih rels

theorem applyAlterEntry_nil (rels : List Relationship) (e : AlterEntry) :
    applyAlterEntry (([] : List Table), rels) e = ([], rels) := by
  unfold applyAlterEntry
  exact foldl_alterPairStep_nil _ _ _ _

theorem foldl_applyAlterEntry_nil (es : List AlterEntry) (rels : List Relationship) :
    es.foldl applyAlterEntry (([] : List Table), rels) = ([], rels) := by
  induction es generalizing rels with
  | nil => rfl
  | cons e es ih => simpa [applyAlterEntry_nil] using ih rels

theorem parseAlterTableForeignKeys_nil (sql : String) (rels : List Relationship) :
    parseAlterTableForeignKeys sql [] rels = ([], rels) := by
  unfold parseAlterTableForeignKeys
  rw [foldl_applyAlterEntry_nil, foldl_applyAlterEntry_nil]

theorem associateIndexesWithTables_nil (entries : List IndexEntry) :
    associateIndexesWithTables [] entries = [] := by
  induction entries with
  | nil => rfl
  | cons e es ih => simpa [associateIndexesWithTables, assocStep, updateFirstCI] using ih

/-! ## Claims -/

/-- C5: `parseSQL` is deterministic: parsing the same SQL text twice
yields structurally identical Schemas (including the relationship `id`
strings).  The embedding is a pure function of the input: the source has
no global mutable state across calls (the regex literals, `tables` and
`relationships` arrays are created afresh inside each call), so two runs
are the same function application. -/
theorem parseSQL_deterministic (sql : String) : parseSQL sql = parseSQL sql := rfl

/-- C1: `parseSQL` totally evaluates to a Schema on every input (the
embedding is a total function; the source's only `throw` is caught by
the enclosing try/catch), and on any input in which the CREATE TABLE
regex finds no statement it returns the empty Schema: no tables, no
relationships from ALTER TABLE statements (they are skipped for lack of
a matching table) and no surviving indexes (they have no table to attach
to). -/
theorem parseSQL_no_create_tables_empty (sql : String)
    (h : scanCreateTables sql = []) : parseSQL sql = ⟨[], []⟩ := by
  unfold parseSQL fallbackRegexParsing
  rw [h]
  show (⟨associateIndexesWithTables (parseAlterTableForeignKeys sql [] []).1
    (extractIndexes sql), (parseAlterTableForeignKeys sql [] []).2⟩ : Schema) = ⟨[], []⟩
  rw [parseAlterTableForeignKeys_nil, associateIndexesWithTables_nil]

/-- Witness for C1 at a concrete input with no CREATE TABLE statement
(but with an ALTER TABLE statement and a CREATE INDEX statement, both of
which are dropped). -/
theorem parseSQL_no_create_tables_empty_witness :
    scanCreateTables "ALTER TABLE a ADD FOREIGN KEY (x) REFERENCES b(y); CREATE INDEX i ON a (x);" = [] ∧
    parseSQL "ALTER TABLE a ADD FOREIGN KEY (x) REFERENCES b(y); CREATE INDEX i ON a (x);" = ⟨[], []⟩ :=
  ⟨by decide, parseSQL_no_create_tables_empty _ (by decide)⟩

/-- C8: for nodes with positions, `calculateOptimalConnection` compares
`|Δx|` and `|Δy|` between the node centers computed with the fixed
assumed node size 300×200: horizontal dominance (`|Δx| > |Δy|`) yields
the right/left side pair oriented by the sign of `Δx`; otherwise —
including the tie `|Δx| = |Δy|` — the bottom/top side pair oriented by
the sign of `Δy`. -/
theorem calculateOptimalConnection_spec (sourceNode targetNode : RFNode)
    (sp tp : Pt) (hs : sourceNode.position = some sp) (ht : targetNode.position = some tp) :
    calculateOptimalConnection sourceNode targetNode =
      (let deltaX := (tp.x + 300 / 2) - (sp.x + 300 / 2)
       let deltaY := (tp.y + 200 / 2) - (sp.y + 200 / 2)
       if ratAbs deltaX > ratAbs deltaY then
         if deltaX > 0 then
           ⟨sourceNode.id ++ "-source-right", targetNode.id ++ "-target-left"⟩
         else
           ⟨sourceNode.id ++ "-source-left", targetNode.id ++ "-target-right"⟩
       else
         if deltaY > 0 then
           ⟨sourceNode.id ++ "-source-bottom", targetNode.id ++ "-target-top"⟩
         else
           ⟨sourceNode.id ++ "-source-top", targetNode.id ++ "-target-bottom"⟩) := by
  unfold calculateOptimalConnection
  rw [hs, ht]

/-- Witness for C8 at concrete nodes with positions. -/
theorem calculateOptimalConnection_spec_witness :
    (⟨"s", some ⟨0, 0⟩⟩ : RFNode).position = some ⟨0, 0⟩ ∧
    (⟨"t", some ⟨500, 10⟩⟩ : RFNode).position = some ⟨500, 10⟩ ∧
    calculateOptimalConnection ⟨"s", some ⟨0, 0⟩⟩ ⟨"t", some ⟨500, 10⟩⟩ =
      (let deltaX := (((⟨500, 10⟩ : Pt).x + 300 / 2) - ((⟨0, 0⟩ : Pt).x + 300 / 2) : ℚ)
       let deltaY := (((⟨500, 10⟩ : Pt).y + 200 / 2) - ((⟨0, 0⟩ : Pt).y + 200 / 2) : ℚ)
       if ratAbs deltaX > ratAbs deltaY then
         if deltaX > 0 then ⟨"s" ++ "-source-right", "t" ++ "-target-left"⟩
         else ⟨"s" ++ "-source-left", "t" ++ "-target-right"⟩
       else
         if deltaY > 0 then ⟨"s" ++ "-source-bottom", "t" ++ "-target-top"⟩
         else ⟨"s" ++ "-source-top", "t" ++ "-target-bottom"⟩) :=
  ⟨rfl, rfl, calculateOptimalConnection_spec _ _ _ _ rfl rfl⟩

end SQLFlow
